import Mathlib

/-!
Shallow embedding of the rating and ranking engine of `src/app.js`
(Ranking-Billar).

Modelling conventions:
* JavaScript numbers are modelled as real numbers `ℝ`.
* Inputs that may be non-numeric (the source applies `Number(x) || 0` to
  them) are modelled as `Option ℝ`; `none` stands for any non-numeric
  value and `toNum` is the `Number(x) || 0` coercion.
* JavaScript `Map` objects are modelled as association lists with the
  same observable behaviour: `mapSet` replaces an existing binding in
  place (preserving insertion order) or appends a new one, `mapGet`
  returns the first binding for a key, and iteration order is list order.
* `String.prototype.localeCompare` is locale/ICU collation, which is not
  reproducible in the embedding; every function that uses it takes an
  integer-valued comparator parameter (`locCmp` for the `"es"` collation
  used by the ranking sort, `dcmp` for the default collation used by the
  chronological tournament sort).
* `Array.prototype.sort` is required by the ECMAScript spec to be stable
  and to produce a list sorted by the comparator; it is modelled by
  `List.insertionSort`, which is stable and sorts by the given relation.
-/

namespace Billar

/-- Constant `RATING_REGRESSION_K` from `src/app.js` line 4. -/
def RATING_REGRESSION_K : ℝ := 2

/-- Constant `SALDO_CAP_PER_TOURNAMENT` from `src/app.js` line 5. -/
def SALDO_CAP_PER_TOURNAMENT : ℝ := 25

/-- Constant `TOURNAMENT_REFERENCE_SIZE` from `src/app.js` line 6. -/
def TOURNAMENT_REFERENCE_SIZE : ℝ := 16

/-- Constant `RELATIVE_Z_CAP` from `src/app.js` line 7. -/
def RELATIVE_Z_CAP : ℝ := 2.5

/-- Constant `RELATIVE_SCORE_SCALE` from `src/app.js` line 8. -/
def RELATIVE_SCORE_SCALE : ℝ := 2.5

/-- A player record (only the fields the engine reads: `id`, `name`). -/
structure Player where
  id : String
  name : String

/-- One player's result in one championship; `points` and `saldo` are
`Option ℝ` because the source coerces them with `Number(x) || 0`. -/
structure Result where
  playerId : String
  points : Option ℝ
  saldo : Option ℝ

/-- A championship (tournament) record with the fields the engine reads. -/
structure Championship where
  id : String
  name : String
  date : String
  createdAt : String
  results : List Result

/-- Per-tournament context: `{mean, std, sizeWeight}`. -/
structure Context where
  mean : ℝ
  std : ℝ
  sizeWeight : ℝ

/-- Per-player aggregate row kept in `statsMap` inside `computeRanking`. -/
structure StatsRow where
  playerId : String
  championships : ℕ
  pointsTotal : ℝ
  saldoTotalRaw : ℝ
  saldoTotalForRating : ℝ
  relativeTotal : ℝ

/-- One row of the ranking output. The source field `promedio` is named
`average` here. `saldoTotal` is the raw (uncapped) saldo total. -/
structure RankingEntry where
  playerId : String
  name : String
  championships : ℕ
  average : ℝ
  saldoTotal : ℝ
  rating : ℝ

/-- One point of a player's timeline as produced by `getPlayerTimeline`. -/
structure TimelinePoint where
  championshipId : String
  championshipName : String
  date : String
  points : ℝ
  saldo : ℝ
  tournamentScore : ℝ
  rating : ℝ

/-- The `Number(x) || 0` coercion: non-numeric input becomes `0`. -/
def toNum (v : Option ℝ) : ℝ := v.getD 0

/-- `capSaldoForRating` (`src/app.js` lines 150-153):
`Math.max(-25, Math.min(25, Number(saldo) || 0))`. -/
noncomputable def capSaldoForRating (saldo : Option ℝ) : ℝ :=
  max (-SALDO_CAP_PER_TOURNAMENT) (min SALDO_CAP_PER_TOURNAMENT (toNum saldo))

/-- `getTournamentScore` (`src/app.js` lines 155-157). -/
noncomputable def getTournamentScore (points saldo : Option ℝ) : ℝ :=
  toNum points + capSaldoForRating saldo * 0.1

/-- `clamp(value, min, max)` (`src/app.js` lines 159-161); the source's
`min`/`max` parameters are named `lo`/`hi` here. -/
noncomputable def clamp (value lo hi : ℝ) : ℝ :=
  max lo (min hi value)

/-- The context computed for a single championship inside
`computeChampionshipContexts` (`src/app.js` lines 166-191). -/
noncomputable def contextOf (championship : Championship) : Context :=
  let scores := championship.results.map (fun result =>
    getTournamentScore result.points result.saldo)
  let participants := scores.length
  if participants = 0 then
    { mean := 0, std := 0, sizeWeight := 0 }
  else
    let mean := scores.sum / participants
    let variance := (scores.map (fun value => (value - mean) * (value - mean))).sum / participants
    { mean := mean
      std := Real.sqrt variance
      sizeWeight := min 1 (Real.sqrt (participants / TOURNAMENT_REFERENCE_SIZE)) }

/-- JavaScript `Map.set` on an association list: replace in place if the
key is present, append otherwise. -/
def mapSet {α : Type} : List (String × α) → String → α → List (String × α)
  | [], key, value => [(key, value)]
  | (k, v) :: rest, key, value =>
    if k = key then (k, value) :: rest else (k, v) :: mapSet rest key value

/-- JavaScript `Map.get` on an association list. -/
def mapGet {α : Type} : List (String × α) → String → Option α
  | [], _ => none
  | (k, v) :: rest, key => if k = key then some v else mapGet rest key

/-- `computeChampionshipContexts` (`src/app.js` lines 163-195); the `Map`
is the association list in insertion order. -/
noncomputable def computeChampionshipContexts (championships : List Championship) :
    List (String × Context) :=
  championships.foldl (fun contexts championship =>
    mapSet contexts championship.id (contextOf championship)) []

/-- `computeRelativeContribution` (`src/app.js` lines 197-204); `context`
is `Option` because `contexts.get` can miss (`!context` guard). -/
noncomputable def computeRelativeContribution (score : ℝ) (context : Option Context) : ℝ :=
  match context with
  | none => 0
  | some context =>
    if context.std ≤ 0 then 0
    else
      let zScore := (score - context.mean) / context.std
      let cappedZScore := clamp zScore (-RELATIVE_Z_CAP) RELATIVE_Z_CAP
      cappedZScore * RELATIVE_SCORE_SCALE * context.sizeWeight

/-- `computeGlobalBaselineScore` (`src/app.js` lines 206-221). -/
noncomputable def computeGlobalBaselineScore (championships : List Championship) : ℝ :=
  let participations := (championships.map (fun championship => championship.results.length)).sum
  let scoreTotal := (championships.map (fun championship =>
    (championship.results.map (fun result =>
      getTournamentScore result.points result.saldo)).sum)).sum
  if participations = 0 then 0 else scoreTotal / participations

/-- `computeRawRating` (`src/app.js` lines 223-231); the count is a `ℕ`
(it is always a participation count), so `championshipsCount <= 0`
becomes `= 0`. Source locals `promedio`, `ajusteSaldo`, `factorExp` are
named `average`, `saldoAdjust`, `experienceFactor`. -/
noncomputable def computeRawRating (pointsTotal saldoTotal : ℝ) (championshipsCount : ℕ) : ℝ :=
  if championshipsCount = 0 then 0
  else
    let average := pointsTotal / championshipsCount
    let saldoAdjust := saldoTotal * 0.1
    let experienceFactor := 1 + min 0.15 (Real.log (1 + championshipsCount) * 0.05)
    (average + saldoAdjust) * experienceFactor

/-- `applyRegressionToMean` (`src/app.js` lines 233-239). -/
noncomputable def applyRegressionToMean (rawRating : ℝ) (championshipsCount : ℕ)
    (baselineScore : ℝ) : ℝ :=
  if championshipsCount ≠ 1 then rawRating
  else
    let weight := (championshipsCount : ℝ) / (championshipsCount + RATING_REGRESSION_K)
    rawRating * weight + baselineScore * (1 - weight)

/-- The per-result update of a `statsMap` row inside `computeRanking`
(`src/app.js` lines 259-265). -/
noncomputable def addResult (context : Option Context) (result : Result)
    (row : StatsRow) : StatsRow :=
  { row with
    championships := row.championships + 1
    pointsTotal := row.pointsTotal + toNum result.points
    saldoTotalRaw := row.saldoTotalRaw + toNum result.saldo
    saldoTotalForRating := row.saldoTotalForRating + capSaldoForRating result.saldo
    relativeTotal := row.relativeTotal +
      computeRelativeContribution (getTournamentScore result.points result.saldo) context }

/-- The fresh row created by `statsMap.set` when a player id is first seen
(`src/app.js` lines 249-258). -/
def blankRow (playerId : String) : StatsRow :=
  ⟨playerId, 0, 0, 0, 0, 0⟩

/-- The `statsMap` accumulation loop of `computeRanking`
(`src/app.js` lines 246-267). -/
noncomputable def buildStatsMap (championships : List Championship)
    (contexts : List (String × Context)) : List (String × StatsRow) :=
  championships.foldl (fun statsMap championship =>
    let context := mapGet contexts championship.id
    championship.results.foldl (fun statsMap result =>
      let row := (mapGet statsMap result.playerId).getD (blankRow result.playerId)
      mapSet statsMap result.playerId (addResult context result row)) statsMap) []

/-- The ranking-entry construction of `computeRanking`
(`src/app.js` lines 270-292): skip rows with zero championships or an
unresolvable player id, otherwise derive the rating. -/
noncomputable def rankingEntryOf (baselineScore : ℝ) (players : List Player)
    (row : StatsRow) : Option RankingEntry :=
  if row.championships = 0 then none
  else
    match players.find? (fun player => player.id == row.playerId) with
    | none => none
    | some player =>
      let average := row.pointsTotal / row.championships
      let rawRating := computeRawRating row.pointsTotal row.saldoTotalForRating row.championships
      let relativeAdjustment := row.relativeTotal / row.championships
      let adjustedRating := rawRating + relativeAdjustment
      let rating := applyRegressionToMean adjustedRating row.championships baselineScore
      some ⟨row.playerId, player.name, row.championships, average, row.saldoTotalRaw, rating⟩

/-- The ranking sort comparator (`src/app.js` lines 294-305); the final
branch `a.name.localeCompare(b.name, "es")` is the comparator parameter
`locCmp` cast to `ℝ` (a JavaScript comparator returns a number). -/
noncomputable def rankingCompare (locCmp : String → String → ℤ) (a b : RankingEntry) : ℝ :=
  if b.rating ≠ a.rating then b.rating - a.rating
  else if b.saldoTotal ≠ a.saldoTotal then b.saldoTotal - a.saldoTotal
  else if b.championships ≠ a.championships then
    (b.championships : ℝ) - (a.championships : ℝ)
  else (locCmp a.name b.name : ℝ)

/-- `computeRanking` (`src/app.js` lines 241-308). -/
noncomputable def computeRanking (locCmp : String → String → ℤ)
    (championships : List Championship) (players : List Player) : List RankingEntry :=
  let baselineScore := computeGlobalBaselineScore championships
  let championshipContexts := computeChampionshipContexts championships
  let statsMap := buildStatsMap championships championshipContexts
  let ranking := statsMap.filterMap (fun kv => rankingEntryOf baselineScore players kv.2)
  List.insertionSort (fun a b => rankingCompare locCmp a b ≤ 0) ranking

/-- The comparator of `sortChampionshipsAscending`
(`src/app.js` lines 605-611), with `localeCompare` as parameter `dcmp`. -/
def championshipCmp (dcmp : String → String → ℤ) (a b : Championship) : ℤ :=
  let byDate := dcmp a.date b.date
  if byDate ≠ 0 then byDate else dcmp a.createdAt b.createdAt

/-- `sortChampionshipsAscending` (`src/app.js` lines 604-612). -/
def sortChampionshipsAscending (dcmp : String → String → ℤ)
    (championships : List Championship) : List Championship :=
  List.insertionSort (fun a b => championshipCmp dcmp a b ≤ 0) championships

/-- The accumulation loop of `getPlayerTimeline`
(`src/app.js` lines 623-651), with the running totals as arguments. -/
noncomputable def timelineGo (contexts : List (String × Context)) (baselineScore : ℝ)
    (playerId : String) :
    ℕ → ℝ → ℝ → ℝ → List Championship → List TimelinePoint
  | _, _, _, _, [] => []
  | championshipsCount, pointsTotal, saldoTotalForRating, relativeTotal,
      championship :: rest =>
    match championship.results.find? (fun row => row.playerId == playerId) with
    | none =>
      timelineGo contexts baselineScore playerId championshipsCount pointsTotal
        saldoTotalForRating relativeTotal rest
    | some result =>
      let championshipsCount1 := championshipsCount + 1
      let pointsTotal1 := pointsTotal + toNum result.points
      let saldoRaw := toNum result.saldo
      let saldoTotalForRating1 := saldoTotalForRating + capSaldoForRating (some saldoRaw)
      let tournamentScore := getTournamentScore result.points (some saldoRaw)
      let context := mapGet contexts championship.id
      let relativeTotal1 := relativeTotal + computeRelativeContribution tournamentScore context
      let rawRating := computeRawRating pointsTotal1 saldoTotalForRating1 championshipsCount1
      let relativeAdjustment := relativeTotal1 / championshipsCount1
      let adjustedRating := rawRating + relativeAdjustment
      let rating := applyRegressionToMean adjustedRating championshipsCount1 baselineScore
      { championshipId := championship.id
        championshipName := championship.name
        date := championship.date
        points := toNum result.points
        saldo := saldoRaw
        tournamentScore := tournamentScore
        rating := rating } ::
        timelineGo contexts baselineScore playerId championshipsCount1 pointsTotal1
          saldoTotalForRating1 relativeTotal1 rest

/-- `getPlayerTimeline` (`src/app.js` lines 614-654); the source reads the
championship list from global state, here it is a parameter. -/
noncomputable def getPlayerTimeline (dcmp : String → String → ℤ) (playerId : String)
    (championships : List Championship) : List TimelinePoint :=
  let baselineScore := computeGlobalBaselineScore championships
  let championshipContexts := computeChampionshipContexts championships
  timelineGo championshipContexts baselineScore playerId 0 0 0 0
    (sortChampionshipsAscending dcmp championships)

/-- `computeMovingAverage` (`src/app.js` lines 656-664). A fractional or
missing `windowSize` passes through `Math.floor(windowSize || 1)` in the
source, so the parameter is the resulting integer; `Math.max(1, _)` is
`max 1` and the slice start `Math.max(0, idx - w + 1)` is the truncated
subtraction `idx + 1 - w`. -/
noncomputable def computeMovingAverage (series : List ℝ) (windowSize : ℤ) : List ℝ :=
  let normalizedWindow := (max 1 windowSize).toNat
  (List.range series.length).map (fun idx =>
    let start := idx + 1 - normalizedWindow
    let slice := (series.take (idx + 1)).drop start
    slice.sum / slice.length)

/-- The championships containing a result for a player, paired with the
first such result (what the timeline loop picks out of each). -/
def playerResults (playerId : String) (championships : List Championship) :
    List (Championship × Result) :=
  championships.filterMap (fun championship =>
    (championship.results.find? (fun row => row.playerId == playerId)).map
      (fun result => (championship, result)))

/-- Placeholder participation pair used with `List.getD`. -/
def dummyPair : Championship × Result :=
  (⟨"", "", "", "", []⟩, ⟨"", none, none⟩)

/-- Modelled from the spec: the timeline point of sections 4.5/4.7 of the
spec computed from scratch, with the running totals written as plain
prefix sums over the first `k + 1` of a player's participations (offset
by initial accumulator values so that it can be compared against
`timelineGo` at any starting state; the engine starts at `0 0 0 0`). -/
noncomputable def timelinePointSpec (contexts : List (String × Context)) (baselineScore : ℝ)
    (n0 : ℕ) (p0 s0 r0 : ℝ) (part : List (Championship × Result)) (k : ℕ) : TimelinePoint :=
  let pref := part.take (k + 1)
  let cr := part.getD k dummyPair
  let n1 := n0 + pref.length
  let p1 := p0 + (pref.map (fun cr => toNum cr.2.points)).sum
  let s1 := s0 + (pref.map (fun cr => capSaldoForRating cr.2.saldo)).sum
  let r1 := r0 + (pref.map (fun cr =>
    computeRelativeContribution (getTournamentScore cr.2.points cr.2.saldo)
      (mapGet contexts cr.1.id))).sum
  { championshipId := cr.1.id
    championshipName := cr.1.name
    date := cr.1.date
    points := toNum cr.2.points
    saldo := toNum cr.2.saldo
    tournamentScore := getTournamentScore cr.2.points cr.2.saldo
    rating := applyRegressionToMean (computeRawRating p1 s1 n1 + r1 / n1) n1 baselineScore }

/-- Placeholder timeline point used with `List.getD`. -/
def dummyPoint : TimelinePoint := ⟨"", "", "", 0, 0, 0, 0⟩

/-- Concrete player X of the spec's concrete scenario (section 8). -/
def playerX : Player := ⟨"X", "Xavier"⟩

/-- Concrete player Y of the spec's concrete scenario (section 8). -/
def playerY : Player := ⟨"Y", "Yolanda"⟩

/-- The concrete one-tournament scenario of section 8 of the spec:
X scores 100 points with saldo +10, Y scores 80 points with saldo -5. -/
def champT : Championship :=
  ⟨"t1", "Torneo 1", "2024-01-01", "2024-01-01T10:00:00Z",
    [⟨"X", some 100, some 10⟩, ⟨"Y", some 80, some (-5)⟩]⟩

/-- A minimal championship with one all-default result for player X,
used to exercise the ranking pipeline at a concrete input. -/
def champZero : Championship :=
  ⟨"c0", "T0", "2024-01-01", "2024-01-01", [⟨"X", none, none⟩]⟩

theorem mapGet_mapSet {α : Type} (m : List (String × α)) (k key : String) (v : α) :
    mapGet (mapSet m k v) key = if k = key then some v else mapGet m key := by
  induction m with
  | nil => simp [mapSet, mapGet]
  | cons head rest ih =>
    obtain ⟨hk, hv⟩ := head
    simp only [mapSet]
    by_cases h1 : hk = k
    · rw [if_pos h1]
      subst h1
      by_cases h2 : hk = key <;> simp [mapGet, h2]
    · rw [if_neg h1]
      by_cases h2 : hk = key
      · have hk2 : k ≠ key := fun hkey => h1 (h2.trans hkey.symm)
        simp [mapGet, h2, hk2]
      · simp [mapGet, h2, ih]

theorem mapGet_foldl_contexts (cid : String) (ctx : Context) :
    ∀ (l : List Championship) (m : List (String × Context)),
      mapGet (l.foldl (fun contexts championship =>
        mapSet contexts championship.id (contextOf championship)) m) cid = some ctx →
      (∃ c ∈ l, c.id = cid ∧ ctx = contextOf c) ∨ mapGet m cid = some ctx := by
  intro l
  induction l with
  | nil => exact fun m h => Or.inr h
  | cons c rest ih =>
    intro m h
    rcases ih (mapSet m c.id (contextOf c)) h with h1 | h1
    · obtain ⟨c0, hc0, hid, hctx⟩ := h1
      exact Or.inl ⟨c0, List.mem_cons_of_mem _ hc0, hid, hctx⟩
    · rw [mapGet_mapSet] at h1
      by_cases hid : c.id = cid
      · rw [if_pos hid] at h1
        exact Or.inl ⟨c, List.mem_cons_self _ _, hid, (Option.some_inj.mp h1).symm⟩
      · rw [if_neg hid] at h1
        exact Or.inr h1

theorem mapGet_computeChampionshipContexts (championships : List Championship)
    (cid : String) (ctx : Context)
    (h : mapGet (computeChampionshipContexts championships) cid = some ctx) :
    ∃ c ∈ championships, c.id = cid ∧ ctx = contextOf c := by
  rcases mapGet_foldl_contexts cid ctx championships [] h with h1 | h1
  · exact h1
  · simp [mapGet] at h1

theorem drop_take_eq_map_range (l : List ℝ) (lo n : ℕ) (h : lo + n ≤ l.length) :
    (l.take (lo + n)).drop lo = (List.range' lo n).map (fun j => l.getD j 0) := by
  apply List.ext_getElem
  · simp
    omega
  · intro i h1 h2
    have hi : i < n := by
      simp at h2
      omega
    have hlog : lo + i < l.length := by omega
    rw [List.getElem_drop, List.getElem_take, List.getElem_map, List.getElem_range',
      show lo + 1 * i = lo + i from by ring, List.getD_eq_getElem l 0 hlog]

theorem sum_Icc_getD (l : List ℝ) (lo i : ℕ) (hlo : lo ≤ i) (hi : i < l.length) :
    (∑ j ∈ Finset.Icc lo i, l.getD j 0) = ((l.take (i + 1)).drop lo).sum := by
  have hn : lo + (i + 1 - lo) = i + 1 := by omega
  rw [Nat.Icc_eq_range',
    show l.take (i + 1) = l.take (lo + (i + 1 - lo)) from by rw [hn],
    drop_take_eq_map_range l lo (i + 1 - lo) (by omega)]
  simp [Finset.sum_mk, Multiset.map_coe, Multiset.sum_coe]

/-- C8: for every window `w ≥ 1`, `computeMovingAverage` preserves the
length of the series index-for-index, and entry `i` is the arithmetic
mean of `series[max 0 (i - w + 1) .. i]`; the index window is never
empty. -/
theorem C8_moving_average_partial_windows (series : List ℝ) (wz : ℤ) (hw : 1 ≤ wz) :
    (computeMovingAverage series wz).length = series.length
    ∧ ∀ i, i < series.length →
        1 ≤ (Finset.Icc (i + 1 - wz.toNat) i).card
        ∧ (computeMovingAverage series wz).getD i 0
          = (∑ j ∈ Finset.Icc (i + 1 - wz.toNat) i, series.getD j 0)
            / ((Finset.Icc (i + 1 - wz.toNat) i).card : ℝ) := by
  have hmax : (max 1 wz).toNat = wz.toNat := by rw [max_eq_right hw]
  have hw1 : 1 ≤ wz.toNat := by omega
  constructor
  · simp [computeMovingAverage]
  · intro i hi
    have hcard : (Finset.Icc (i + 1 - wz.toNat) i).card = i + 1 - (i + 1 - wz.toNat) := by
      rw [Nat.card_Icc]
    refine ⟨by rw [hcard]; omega, ?_⟩
    have hval : (computeMovingAverage series wz).getD i 0
        = ((series.take (i + 1)).drop (i + 1 - wz.toNat)).sum
          / (((series.take (i + 1)).drop (i + 1 - wz.toNat)).length : ℝ) := by
      simp only [computeMovingAverage, hmax]
      rw [List.getD_eq_getElem _ 0 (by simpa using hi)]
      rw [List.getElem_map, List.getElem_range]
    have hlen : ((series.take (i + 1)).drop (i + 1 - wz.toNat)).length
        = i + 1 - (i + 1 - wz.toNat) := by
      simp
      omega
    rw [hval, ← sum_Icc_getD series (i + 1 - wz.toNat) i (by omega) hi, hlen, hcard]

/-- Witness for C8: the moving average of `[1, 3]` with window 2 has
length 2, and its entry 1 is the mean of both values. -/
theorem C8_witness :
    (computeMovingAverage [(1 : ℝ), 3] 2).length = 2
    ∧ 1 ≤ (Finset.Icc (1 + 1 - (2 : ℤ).toNat) 1).card
    ∧ (computeMovingAverage [(1 : ℝ), 3] 2).getD 1 0
      = (∑ j ∈ Finset.Icc (1 + 1 - (2 : ℤ).toNat) 1, ([(1 : ℝ), 3]).getD j 0)
        / ((Finset.Icc (1 + 1 - (2 : ℤ).toNat) 1).card : ℝ) := by
  have h := C8_moving_average_partial_windows [(1 : ℝ), 3] 2 (by norm_num)
  have h2 := h.2 1 (by norm_num)
  exact ⟨by simpa using h.1, h2.1, h2.2⟩

/-- C9: a moving average with window 1 returns the series unchanged. -/
theorem C9_moving_average_window_one (series : List ℝ) :
    computeMovingAverage series 1 = series := by
  apply List.ext_getElem
  · simp [computeMovingAverage]
  · intro i h1 h2
    have hmax : (max 1 (1 : ℤ)).toNat = 1 := by norm_num
    simp only [computeMovingAverage, hmax]
    rw [List.getElem_map, List.getElem_range]
    have hs : (series.take (i + 1)).drop (i + 1 - 1) = [series.getD i 0] := by
      have h := drop_take_eq_map_range series i 1 (by omega)
      rw [show i + 1 - 1 = i from by omega]
      rw [show i + 1 = i + 1 from rfl] at h
      simpa [List.range'] using h
    rw [hs]
    simp [List.getD_eq_getElem _ 0 h2, List.getElem?_eq_getElem h2]

/-- C1: the final rating applies shrinkage only when the participation
count is exactly 1; there the rating is `adjustedRating * w + baseline *
(1 - w)` with `w = 1/3`, hence strictly between the adjusted rating and
the baseline when the two differ, while any other count (0 included)
returns the adjusted rating unchanged. -/
theorem C1_shrinkage_only_at_one_participation (a b : ℝ) (n : ℕ) :
    applyRegressionToMean a 1 b = a * (1 / 3) + b * (1 - 1 / 3)
    ∧ (a ≠ b →
        min a b < applyRegressionToMean a 1 b ∧ applyRegressionToMean a 1 b < max a b)
    ∧ (n ≠ 1 → applyRegressionToMean a n b = a) := by
  have h1 : applyRegressionToMean a 1 b = a * (1 / 3) + b * (1 - 1 / 3) := by
    simp only [applyRegressionToMean, RATING_REGRESSION_K]
    norm_num
  refine ⟨h1, fun hab => ?_, fun hn => by simp [applyRegressionToMean, hn]⟩
  rcases lt_or_gt_of_ne hab with h | h
  · rw [h1, min_eq_left h.le, max_eq_right h.le]
    constructor <;> nlinarith
  · rw [h1, min_eq_right h.le, max_eq_left h.le]
    constructor <;> nlinarith

/-- Witness for C1 at concrete inputs: with adjusted rating 0 and
baseline 9 the single-participation rating lies strictly between them,
and with two participations the baseline is ignored. -/
theorem C1_witness :
    (min (0 : ℝ) 9 < applyRegressionToMean 0 1 9
      ∧ applyRegressionToMean 0 1 9 < max (0 : ℝ) 9)
    ∧ applyRegressionToMean 5 2 9 = 5 :=
  ⟨(C1_shrinkage_only_at_one_participation 0 9 2).2.1 (by norm_num),
   (C1_shrinkage_only_at_one_participation 5 9 2).2.2 (by norm_num)⟩

/-- C7: `capSaldoForRating` is the identity on `[-25, 25]` and exactly
`±25` outside; `getTournamentScore` is `points + cappedSaldo * 0.1`; and
non-numeric inputs coerce to `0`. -/
theorem C7_saldo_cap_and_tournament_score (s : ℝ) (p q : Option ℝ) :
    (-25 ≤ s → s ≤ 25 → capSaldoForRating (some s) = s)
    ∧ (25 < s → capSaldoForRating (some s) = 25)
    ∧ (s < -25 → capSaldoForRating (some s) = -25)
    ∧ getTournamentScore p q = toNum p + capSaldoForRating q * 0.1
    ∧ capSaldoForRating none = 0
    ∧ getTournamentScore none none = 0 := by
  refine ⟨?_, ?_, ?_, rfl, ?_, ?_⟩
  · intro h1 h2
    simp only [capSaldoForRating, SALDO_CAP_PER_TOURNAMENT, toNum, Option.getD_some]
    rw [min_eq_right h2, max_eq_right h1]
  · intro h
    simp only [capSaldoForRating, SALDO_CAP_PER_TOURNAMENT, toNum, Option.getD_some]
    rw [min_eq_left h.le, max_eq_right (by norm_num)]
  · intro h
    simp only [capSaldoForRating, SALDO_CAP_PER_TOURNAMENT, toNum, Option.getD_some]
    rw [min_eq_right (by linarith), max_eq_left h.le]
  · norm_num [capSaldoForRating, SALDO_CAP_PER_TOURNAMENT, toNum]
  · norm_num [getTournamentScore, capSaldoForRating, SALDO_CAP_PER_TOURNAMENT, toNum]

/-- Witness for C7 at concrete saldos 5, 30 and -30. -/
theorem C7_witness :
    capSaldoForRating (some 5) = 5
    ∧ capSaldoForRating (some 30) = 25
    ∧ capSaldoForRating (some (-30)) = -25 :=
  ⟨(C7_saldo_cap_and_tournament_score 5 none none).1 (by norm_num) (by norm_num),
   (C7_saldo_cap_and_tournament_score 30 none none).2.1 (by norm_num),
   (C7_saldo_cap_and_tournament_score (-30) none none).2.2.1 (by norm_num)⟩

/-- C4: a championship whose participants all have identical tournament
scores (including zero or one participant) gets `std = 0`, and a missing
context or a context with `std ≤ 0` makes every relative contribution
exactly `0` (the guard fires before any division). -/
theorem C4_zero_dispersion_safety (championship : Championship) (s : ℝ) :
    ((∀ r1 ∈ championship.results, ∀ r2 ∈ championship.results,
        getTournamentScore r1.points r1.saldo = getTournamentScore r2.points r2.saldo) →
      (contextOf championship).std = 0)
    ∧ computeRelativeContribution s none = 0
    ∧ (∀ c : Context, c.std ≤ 0 → computeRelativeContribution s (some c) = 0) := by
  refine ⟨fun hall => ?_, rfl, fun c hc => by simp [computeRelativeContribution, hc]⟩
  rcases List.eq_nil_or_concat championship.results with hnil | hne
  · simp [contextOf, hnil]
  · have hlen : championship.results.length ≠ 0 := by
      obtain ⟨l, a, hla⟩ := hne
      simp [hla]
    obtain ⟨r0, hr0⟩ := List.exists_mem_of_ne_nil championship.results
      (fun h => hlen (by simp [h]))
    set v := getTournamentScore r0.points r0.saldo with hv
    have hscores : ∀ x ∈ championship.results.map (fun result =>
        getTournamentScore result.points result.saldo), x = v := by
      intro x hx
      obtain ⟨r, hr, hrx⟩ := List.mem_map.mp hx
      rw [← hrx]
      exact hall r hr r0 hr0
    have hsum : (championship.results.map (fun result =>
        getTournamentScore result.points result.saldo)).sum
        = (championship.results.length : ℕ) • v := by
      rw [List.sum_eq_card_nsmul _ v hscores, List.length_map]
    simp only [contextOf, List.length_map]
    rw [if_neg hlen]
    have hlenR : (championship.results.length : ℝ) ≠ 0 := Nat.cast_ne_zero.mpr hlen
    have hmean : (championship.results.map (fun result =>
        getTournamentScore result.points result.saldo)).sum
        / (championship.results.length : ℝ) = v := by
      rw [hsum, nsmul_eq_mul, mul_comm, mul_div_assoc, div_self hlenR, mul_one]
    have hvar : ((championship.results.map (fun result =>
        getTournamentScore result.points result.saldo)).map (fun value =>
          (value - (championship.results.map (fun result =>
            getTournamentScore result.points result.saldo)).sum
            / (championship.results.length : ℝ))
          * (value - (championship.results.map (fun result =>
            getTournamentScore result.points result.saldo)).sum
            / (championship.results.length : ℝ)))).sum = 0 := by
      apply List.sum_eq_zero
      intro x hx
      obtain ⟨y, hy, hyx⟩ := List.mem_map.mp hx
      rw [← hyx, hmean, hscores y hy]
      ring
    rw [hvar]
    simp [Real.sqrt_zero]

/-- Witness for C4: a two-result championship where both players get
tournament score 12 has `std = 0`. -/
theorem C4_witness :
    (contextOf ⟨"t0", "T", "2024-01-01", "2024-01-01",
      [⟨"A", some 10, some 20⟩, ⟨"B", some 11, some 10⟩]⟩).std = 0 :=
  (C4_zero_dispersion_safety _ 0).1 (by
    intro r1 h1 r2 h2
    simp only [List.mem_cons, List.not_mem_nil, or_false] at h1 h2
    rcases h1 with h1 | h1 <;> rcases h2 with h2 | h2 <;> subst h1 <;> subst h2 <;>
      norm_num [getTournamentScore, capSaldoForRating, toNum, SALDO_CAP_PER_TOURNAMENT])

/-- C10: every context produced by `computeChampionshipContexts` has a
size weight in `[0, 1]`, and the relative contribution of any score
against such a context is bounded in absolute value by
`2.5 * 2.5 * 1 = 6.25`. -/
theorem C10_relative_contribution_bounded (championships : List Championship)
    (cid : String) (ctx : Context)
    (h : mapGet (computeChampionshipContexts championships) cid = some ctx) :
    (0 ≤ ctx.sizeWeight ∧ ctx.sizeWeight ≤ 1)
    ∧ ∀ s : ℝ, |computeRelativeContribution s (some ctx)| ≤ 6.25 := by
  obtain ⟨c, _, _, rfl⟩ := mapGet_computeChampionshipContexts championships cid ctx h
  have hsw : 0 ≤ (contextOf c).sizeWeight ∧ (contextOf c).sizeWeight ≤ 1 := by
    simp only [contextOf]
    split
    · norm_num
    · exact ⟨le_min (by norm_num) (Real.sqrt_nonneg _), min_le_left _ _⟩
  refine ⟨hsw, fun s => ?_⟩
  by_cases hstd : (contextOf c).std ≤ 0
  · rw [computeRelativeContribution, if_pos hstd]
    norm_num
  · rw [computeRelativeContribution, if_neg hstd]
    have hclamp : |clamp ((s - (contextOf c).mean) / (contextOf c).std)
        (-RELATIVE_Z_CAP) RELATIVE_Z_CAP| ≤ 2.5 := by
      rw [abs_le]
      unfold clamp RELATIVE_Z_CAP
      constructor
      · exact le_max_left _ _
      · exact max_le (by norm_num) (min_le_left _ _)
    rw [abs_mul, abs_mul]
    have h25 : |RELATIVE_SCORE_SCALE| = 2.5 := by
      norm_num [RELATIVE_SCORE_SCALE]
    rw [h25, abs_of_nonneg hsw.1]
    nlinarith [hsw.1, hsw.2, abs_nonneg (clamp ((s - (contextOf c).mean) / (contextOf c).std)
      (-RELATIVE_Z_CAP) RELATIVE_Z_CAP), hclamp]

/-- Witness for C10: the empty championship labelled `t0` yields the
context `(0, 0, 0)`, whose contributions are bounded by 6.25. -/
theorem C10_witness :
    (0 ≤ (Context.mk 0 0 0).sizeWeight ∧ (Context.mk 0 0 0).sizeWeight ≤ 1)
    ∧ ∀ s : ℝ, |computeRelativeContribution s (some (Context.mk 0 0 0))| ≤ 6.25 :=
  C10_relative_contribution_bounded [⟨"t0", "T", "2024-01-01", "2024-01-01", []⟩] "t0"
    (Context.mk 0 0 0)
    (by simp [computeChampionshipContexts, mapSet, mapGet, contextOf])

theorem rankingCompare_le_iff (locCmp : String → String → ℤ) (a b : RankingEntry) :
    rankingCompare locCmp a b ≤ 0 ↔
      (b.rating < a.rating
        ∨ (b.rating = a.rating
          ∧ (b.saldoTotal < a.saldoTotal
            ∨ (b.saldoTotal = a.saldoTotal
              ∧ (b.championships < a.championships
                ∨ (b.championships = a.championships
                  ∧ locCmp a.name b.name ≤ 0)))))) := by
  unfold rankingCompare
  split_ifs with h1 h2 h3
  · constructor
    · intro h
      exact Or.inl (lt_of_le_of_ne (by linarith) h1)
    · rintro (h | ⟨heq, _⟩)
      · linarith
      · exact absurd heq h1
  · push_neg at h1
    constructor
    · intro h
      exact Or.inr ⟨h1, Or.inl (lt_of_le_of_ne (by linarith) h2)⟩
    · rintro (h | ⟨_, h | ⟨heq2, _⟩⟩)
      · linarith
      · linarith
      · exact absurd heq2 h2
  · push_neg at h1 h2
    constructor
    · intro h
      have hle : b.championships ≤ a.championships := by exact_mod_cast sub_nonpos.mp h
      exact Or.inr ⟨h1, Or.inr ⟨h2, Or.inl (lt_of_le_of_ne hle h3)⟩⟩
    · rintro (h | ⟨_, h | ⟨_, h | ⟨heq, _⟩⟩⟩)
      · linarith
      · linarith
      · have hlt : (b.championships : ℝ) < a.championships := by exact_mod_cast h
        linarith
      · exact absurd heq h3
  · push_neg at h1 h2 h3
    constructor
    · intro h
      have hle : locCmp a.name b.name ≤ 0 := by exact_mod_cast h
      exact Or.inr ⟨h1, Or.inr ⟨h2, Or.inr ⟨h3, hle⟩⟩⟩
    · rintro (h | ⟨_, h | ⟨_, h | ⟨_, h⟩⟩⟩)
      · linarith
      · linarith
      · exact absurd h (by omega)
      · exact_mod_cast h

theorem rankingCompare_neg (locCmp : String → String → ℤ)
    (hanti : ∀ s t, locCmp s t = -locCmp t s) (a b : RankingEntry) :
    rankingCompare locCmp b a = -rankingCompare locCmp a b := by
  unfold rankingCompare
  by_cases h1 : b.rating = a.rating
  · have h1a : ¬(a.rating ≠ b.rating) := by simp [h1]
    have h1b : ¬(b.rating ≠ a.rating) := by simp [h1]
    rw [if_neg h1a, if_neg h1b]
    by_cases h2 : b.saldoTotal = a.saldoTotal
    · have h2a : ¬(a.saldoTotal ≠ b.saldoTotal) := by simp [h2]
      have h2b : ¬(b.saldoTotal ≠ a.saldoTotal) := by simp [h2]
      rw [if_neg h2a, if_neg h2b]
      by_cases h3 : b.championships = a.championships
      · have h3a : ¬(a.championships ≠ b.championships) := by simp [h3]
        have h3b : ¬(b.championships ≠ a.championships) := by simp [h3]
        rw [if_neg h3a, if_neg h3b, hanti b.name a.name]
        push_cast
        ring
      · have h3a : a.championships ≠ b.championships := fun hx => h3 hx.symm
        rw [if_pos h3a, if_pos h3]
        ring
    · have h2a : a.saldoTotal ≠ b.saldoTotal := fun hx => h2 hx.symm
      rw [if_pos h2a, if_pos h2]
      ring
  · have h1a : a.rating ≠ b.rating := fun hx => h1 hx.symm
    rw [if_pos h1a, if_pos h1]
    ring

theorem rankingLe_trans (locCmp : String → String → ℤ)
    (htrans : ∀ s t u, locCmp s t ≤ 0 → locCmp t u ≤ 0 → locCmp s u ≤ 0)
    (a b c : RankingEntry)
    (hab : rankingCompare locCmp a b ≤ 0) (hbc : rankingCompare locCmp b c ≤ 0) :
    rankingCompare locCmp a c ≤ 0 := by
  rw [rankingCompare_le_iff] at hab hbc ⊢
  rcases hab with h | ⟨e1, hab⟩
  · rcases hbc with h2 | ⟨e2, _⟩
    · exact Or.inl (lt_trans h2 h)
    · exact Or.inl (e2 ▸ h)
  · rcases hbc with h2 | ⟨e2, hbc⟩
    · exact Or.inl (lt_of_lt_of_le h2 (le_of_eq e1))
    · refine Or.inr ⟨e2.trans e1, ?_⟩
      rcases hab with h | ⟨f1, hab⟩
      · rcases hbc with h2 | ⟨f2, _⟩
        · exact Or.inl (lt_trans h2 h)
        · exact Or.inl (f2 ▸ h)
      · rcases hbc with h2 | ⟨f2, hbc⟩
        · exact Or.inl (lt_of_lt_of_le h2 (le_of_eq f1))
        · refine Or.inr ⟨f2.trans f1, ?_⟩
          rcases hab with h | ⟨g1, hab⟩
          · rcases hbc with h2 | ⟨g2, _⟩
            · exact Or.inl (lt_trans h2 h)
            · exact Or.inl (g2 ▸ h)
          · rcases hbc with h2 | ⟨g2, hbc⟩
            · exact Or.inl (lt_of_lt_of_eq h2 g1)
            · exact Or.inr ⟨g2.trans g1, htrans _ _ _ hab hbc⟩

/-- C3: provided the locale comparator is sign-antisymmetric and
transitive, `computeRanking`'s output is sorted by the tie-break
comparator (descending rating, then descending raw saldo, then
descending participations, then the locale order on names, ascending);
the comparator is exactly that lexicographic chain, and it returns `0`
only when the names are equal under the locale comparator. -/
theorem C3_ranking_sort_total_order (locCmp : String → String → ℤ)
    (hanti : ∀ s t, locCmp s t = -locCmp t s)
    (htrans : ∀ s t u, locCmp s t ≤ 0 → locCmp t u ≤ 0 → locCmp s u ≤ 0)
    (championships : List Championship) (players : List Player) :
    List.Sorted (fun a b => rankingCompare locCmp a b ≤ 0)
      (computeRanking locCmp championships players)
    ∧ (∀ a b : RankingEntry,
        rankingCompare locCmp a b ≤ 0 ↔
          (b.rating < a.rating
            ∨ (b.rating = a.rating
              ∧ (b.saldoTotal < a.saldoTotal
                ∨ (b.saldoTotal = a.saldoTotal
                  ∧ (b.championships < a.championships
                    ∨ (b.championships = a.championships
                      ∧ locCmp a.name b.name ≤ 0)))))))
    ∧ (∀ a b : RankingEntry,
        rankingCompare locCmp a b = 0 → locCmp a.name b.name = 0) := by
  refine ⟨?_, rankingCompare_le_iff locCmp, ?_⟩
  · haveI htotal : IsTotal RankingEntry (fun a b => rankingCompare locCmp a b ≤ 0) := by
      constructor
      intro a b
      rcases le_or_lt (rankingCompare locCmp a b) 0 with h | h
      · exact Or.inl h
      · refine Or.inr ?_
        rw [rankingCompare_neg locCmp hanti]
        linarith
    haveI htr : IsTrans RankingEntry (fun a b => rankingCompare locCmp a b ≤ 0) :=
      ⟨rankingLe_trans locCmp htrans⟩
    unfold computeRanking
    exact List.sorted_insertionSort _ _
  · intro a b h
    unfold rankingCompare at h
    split_ifs at h with h1 h2 h3
    · exact absurd (by linarith) h1
    · exact absurd (by linarith) h2
    · have hc : (b.championships : ℝ) = a.championships := by linarith
      exact absurd (by exact_mod_cast hc) h3
    · exact_mod_cast h

/-- Witness for C3 with the trivial (constant-zero) locale comparator on
the empty input, together with a comparator-zero instance at two equal
entries. -/
theorem C3_witness :
    List.Sorted (fun a b => rankingCompare (fun _ _ => (0 : ℤ)) a b ≤ 0)
      (computeRanking (fun _ _ => (0 : ℤ)) [] [])
    ∧ (fun _ _ => (0 : ℤ)) "n" "n" = 0 := by
  have h := C3_ranking_sort_total_order (fun _ _ => (0 : ℤ))
    (fun _ _ => by norm_num) (fun _ _ _ h1 _ => h1) [] []
  refine ⟨h.1, h.2.2 ⟨"p", "n", 1, 0, 0, 0⟩ ⟨"p", "n", 1, 0, 0, 0⟩ ?_⟩
  simp [rankingCompare]

theorem mem_mapSet {α : Type} (m : List (String × α)) (key : String) (v : α) :
    ∀ kv ∈ mapSet m key v, (kv.1 = key ∧ kv.2 = v) ∨ kv ∈ m := by
  induction m with
  | nil =>
    intro kv hkv
    simp only [mapSet, List.mem_singleton] at hkv
    exact Or.inl (by rw [hkv]; exact ⟨rfl, rfl⟩)
  | cons head rest ih =>
    intro kv hkv
    obtain ⟨k1, v1⟩ := head
    simp only [mapSet] at hkv
    by_cases h : k1 = key
    · rw [if_pos h] at hkv
      rcases List.mem_cons.mp hkv with h1 | h1
      · exact Or.inl (by rw [h1]; exact ⟨h, rfl⟩)
      · exact Or.inr (List.mem_cons_of_mem _ h1)
    · rw [if_neg h] at hkv
      rcases List.mem_cons.mp hkv with h1 | h1
      · exact Or.inr (by rw [h1]; exact List.mem_cons_self _ _)
      · rcases ih kv h1 with h2 | h2
        · exact Or.inl h2
        · exact Or.inr (List.mem_cons_of_mem _ h2)

theorem mapGet_mem {α : Type} (m : List (String × α)) (key : String) (v : α)
    (h : mapGet m key = some v) : (key, v) ∈ m := by
  induction m with
  | nil => simp [mapGet] at h
  | cons head rest ih =>
    obtain ⟨k1, v1⟩ := head
    simp only [mapGet] at h
    by_cases hk : k1 = key
    · rw [if_pos hk] at h
      obtain rfl : v1 = v := Option.some_inj.mp h
      subst hk
      exact List.mem_cons_self _ _
    · rw [if_neg hk] at h
      exact List.mem_cons_of_mem _ (ih h)

theorem statsFold_inner_mem (context : Option Context) (results : List Result) :
    ∀ (m : List (String × StatsRow)) (kv : String × StatsRow),
      kv ∈ results.foldl (fun statsMap result =>
        mapSet statsMap result.playerId
          (addResult context result
            ((mapGet statsMap result.playerId).getD (blankRow result.playerId)))) m →
      (∃ kv0 ∈ m, kv.2.playerId = kv0.2.playerId)
      ∨ ∃ r ∈ results, kv.2.playerId = r.playerId := by
  induction results with
  | nil =>
    intro m kv hkv
    exact Or.inl ⟨kv, hkv, rfl⟩
  | cons r rest ih =>
    intro m kv hkv
    simp only [List.foldl_cons] at hkv
    rcases ih _ kv hkv with ⟨kv0, hkv0, hpid⟩ | ⟨r1, hr1, hpid⟩
    · rcases mem_mapSet _ _ _ kv0 hkv0 with ⟨_, hv⟩ | hmem
      · rcases hget : mapGet m r.playerId with _ | row1
        · rw [hget] at hv
          refine Or.inr ⟨r, List.mem_cons_self _ _, ?_⟩
          rw [hpid, hv]
          simp [addResult, blankRow]
        · rw [hget] at hv
          refine Or.inl ⟨(r.playerId, row1), mapGet_mem m r.playerId row1 hget, ?_⟩
          rw [hpid, hv]
          simp [addResult]
      · exact Or.inl ⟨kv0, hmem, hpid⟩
    · exact Or.inr ⟨r1, List.mem_cons_of_mem _ hr1, hpid⟩

theorem buildStatsMap_mem (championships : List Championship)
    (contexts : List (String × Context)) :
    ∀ kv ∈ buildStatsMap championships contexts,
      ∃ c ∈ championships, ∃ r ∈ c.results, kv.2.playerId = r.playerId := by
  have hgen : ∀ (l : List Championship) (m : List (String × StatsRow))
      (kv : String × StatsRow),
      kv ∈ l.foldl (fun statsMap championship =>
        championship.results.foldl (fun statsMap result =>
          mapSet statsMap result.playerId
            (addResult (mapGet contexts championship.id) result
              ((mapGet statsMap result.playerId).getD (blankRow result.playerId))))
          statsMap) m →
      (∃ kv0 ∈ m, kv.2.playerId = kv0.2.playerId)
      ∨ ∃ c ∈ l, ∃ r ∈ c.results, kv.2.playerId = r.playerId := by
    intro l
    induction l with
    | nil => exact fun m kv h => Or.inl ⟨kv, h, rfl⟩
    | cons c rest ih =>
      intro m kv hkv
      simp only [List.foldl_cons] at hkv
      rcases ih _ kv hkv with ⟨kv0, hkv0, hpid⟩ | ⟨c1, hc1, r1, hr1, hpid⟩
      · rcases statsFold_inner_mem (mapGet contexts c.id) c.results m kv0 hkv0 with
          ⟨kv1, hkv1, hpid1⟩ | ⟨r1, hr1, hpid1⟩
        · exact Or.inl ⟨kv1, hkv1, hpid.trans hpid1⟩
        · exact Or.inr ⟨c, List.mem_cons_self _ _, r1, hr1, hpid.trans hpid1⟩
      · exact Or.inr ⟨c1, List.mem_cons_of_mem _ hc1, r1, hr1, hpid⟩
  intro kv hkv
  simp only [buildStatsMap] at hkv
  rcases hgen championships [] kv hkv with ⟨kv0, h0, _⟩ | h
  · simp at h0
  · exact h

/-- C6: every ranking entry has at least one participation and a player
id resolving (with matching name) in the supplied player directory;
results with unresolvable ids produce no entry; and empty input — no
tournaments, no players to resolve against, or no result whose player id
resolves in the directory (unresolvable ids or empty result lists) —
yields an empty ranking. -/
theorem C6_ranking_entries_resolvable (locCmp : String → String → ℤ)
    (championships : List Championship) (players : List Player) :
    (∀ e ∈ computeRanking locCmp championships players,
      1 ≤ e.championships ∧ ∃ p ∈ players, p.id = e.playerId ∧ e.name = p.name)
    ∧ computeRanking locCmp [] players = []
    ∧ computeRanking locCmp championships [] = []
    ∧ ((∀ c ∈ championships, ∀ r ∈ c.results,
          players.find? (fun player => player.id == r.playerId) = none) →
        computeRanking locCmp championships players = []) := by
  refine ⟨?_, ?_, ?_, ?_⟩
  · intro e he
    unfold computeRanking at he
    rw [List.mem_insertionSort] at he
    obtain ⟨kv, _, hkv⟩ := List.mem_filterMap.mp he
    unfold rankingEntryOf at hkv
    split_ifs at hkv with hch
    rcases hfind : List.find? (fun player => player.id == kv.2.playerId) players with
      _ | player
    · rw [hfind] at hkv
      exact absurd hkv (by simp)
    · rw [hfind] at hkv
      simp only [Option.some_inj] at hkv
      have hmem : player ∈ players := List.mem_of_find?_eq_some hfind
      have hid : player.id = kv.2.playerId := by
        have := List.find?_some hfind
        simpa using this
      refine ⟨?_, player, hmem, ?_, ?_⟩
      · rw [← hkv]
        show 1 ≤ kv.2.championships
        omega
      · rw [← hkv]
        exact hid
      · rw [← hkv]
  · simp [computeRanking, buildStatsMap, computeChampionshipContexts]
  · have hnone : ∀ row : StatsRow,
        rankingEntryOf (computeGlobalBaselineScore championships) [] row = none := by
      intro row
      unfold rankingEntryOf
      split_ifs with hch
      · rfl
      · rfl
    simp only [computeRanking, hnone]
    rw [List.filterMap_eq_nil_iff.mpr (fun _ _ => rfl)]
    simp
  · intro hunres
    have hnone : ∀ kv ∈ buildStatsMap championships
        (computeChampionshipContexts championships),
        rankingEntryOf (computeGlobalBaselineScore championships) players kv.2 = none := by
      intro kv hkv
      obtain ⟨c, hc, r, hr, hpid⟩ :=
        buildStatsMap_mem championships (computeChampionshipContexts championships) kv hkv
      unfold rankingEntryOf
      split_ifs with hch
      · rfl
      · rw [hpid, hunres c hc r hr]
    simp only [computeRanking]
    rw [List.filterMap_eq_nil_iff.mpr hnone]
    simp

/-- Witness for C6: the one-championship, one-player input produces the
single entry for player X, which satisfies the resolvability property;
and the same championship against a directory holding only player Y
(so no result resolves) produces the empty ranking. -/
theorem C6_witness :
    (1 ≤ (RankingEntry.mk "X" "Xavier" 1 0 0 0).championships
      ∧ ∃ p ∈ [playerX], p.id = (RankingEntry.mk "X" "Xavier" 1 0 0 0).playerId
          ∧ (RankingEntry.mk "X" "Xavier" 1 0 0 0).name = p.name)
    ∧ computeRanking (fun _ _ => (0 : ℤ)) [champZero] [playerY] = [] := by
  have heval : computeRanking (fun _ _ => (0 : ℤ)) [champZero] [playerX]
      = [RankingEntry.mk "X" "Xavier" 1 0 0 0] := by
    norm_num [computeRanking, computeGlobalBaselineScore, computeChampionshipContexts,
      contextOf, mapSet, mapGet, buildStatsMap, blankRow, addResult, rankingEntryOf,
      getTournamentScore, capSaldoForRating, toNum, computeRelativeContribution,
      computeRawRating, applyRegressionToMean, champZero, playerX,
      SALDO_CAP_PER_TOURNAMENT, Real.sqrt_zero, List.find?]
  refine ⟨(C6_ranking_entries_resolvable (fun _ _ => (0 : ℤ)) [champZero] [playerX]).1 _
    (by rw [heval]; exact List.mem_singleton_self _), ?_⟩
  refine (C6_ranking_entries_resolvable (fun _ _ => (0 : ℤ)) [champZero] [playerY]).2.2.2 ?_
  intro c hc r hr
  simp only [List.mem_singleton] at hc
  subst hc
  simp only [champZero, List.mem_singleton] at hr
  subst hr
  simp [playerY, List.find?]

theorem championshipCmp_le_iff (dcmp : String → String → ℤ) (a b : Championship) :
    championshipCmp dcmp a b ≤ 0 ↔
      (dcmp a.date b.date < 0
        ∨ (dcmp a.date b.date = 0 ∧ dcmp a.createdAt b.createdAt ≤ 0)) := by
  simp only [championshipCmp]
  by_cases h : dcmp a.date b.date = 0
  · simp [h]
  · rw [if_pos h]
    constructor
    · intro hle
      exact Or.inl (lt_of_le_of_ne hle h)
    · rintro (hlt | ⟨heq, _⟩)
      · exact le_of_lt hlt
      · exact absurd heq h

theorem championshipCmp_neg (dcmp : String → String → ℤ)
    (hanti : ∀ s t, dcmp s t = -dcmp t s) (a b : Championship) :
    championshipCmp dcmp b a = -championshipCmp dcmp a b := by
  simp only [championshipCmp]
  by_cases h : dcmp a.date b.date = 0
  · have hr : dcmp b.date a.date = 0 := by
      rw [hanti b.date a.date, h]
      ring
    rw [if_neg (by simp [hr]), if_neg (by simp [h]), hanti b.createdAt a.createdAt]
  · have hr : dcmp b.date a.date ≠ 0 := by
      rw [hanti b.date a.date]
      simpa using h
    rw [if_pos hr, if_pos h, hanti b.date a.date]

theorem championshipLe_trans (dcmp : String → String → ℤ)
    (hanti : ∀ s t, dcmp s t = -dcmp t s)
    (htrans : ∀ s t u, dcmp s t ≤ 0 → dcmp t u ≤ 0 → dcmp s u ≤ 0)
    (a b c : Championship)
    (hab : championshipCmp dcmp a b ≤ 0) (hbc : championshipCmp dcmp b c ≤ 0) :
    championshipCmp dcmp a c ≤ 0 := by
  rw [championshipCmp_le_iff] at hab hbc ⊢
  have hflip : ∀ s t, dcmp s t = 0 → dcmp t s = 0 := by
    intro s t h1
    rw [hanti t s, h1]
    ring
  have hzero : ∀ s t u, dcmp s t = 0 → dcmp t u = 0 → dcmp s u = 0 := by
    intro s t u h1 h2
    have hle : dcmp s u ≤ 0 := htrans s t u h1.le h2.le
    have hge : dcmp u s ≤ 0 := htrans u t s (hflip t u h2).le (hflip s t h1).le
    rw [hanti u s] at hge
    omega
  have hstrictr : ∀ s t u, dcmp s t < 0 → dcmp t u = 0 → dcmp s u < 0 := by
    intro s t u h1 h2
    have hle : dcmp s u ≤ 0 := htrans s t u h1.le h2.le
    rcases lt_or_eq_of_le hle with h | h
    · exact h
    · exfalso
      have hts : dcmp t s ≤ 0 := htrans t u s h2.le (hflip s u h).le
      rw [hanti t s] at hts
      omega
  have hstrictl : ∀ s t u, dcmp s t = 0 → dcmp t u < 0 → dcmp s u < 0 := by
    intro s t u h1 h2
    have hle : dcmp s u ≤ 0 := htrans s t u h1.le h2.le
    rcases lt_or_eq_of_le hle with h | h
    · exact h
    · exfalso
      have hut : dcmp u t ≤ 0 := htrans u s t (hflip s u h).le h1.le
      rw [hanti u t] at hut
      omega
  have hstrict2 : ∀ s t u, dcmp s t < 0 → dcmp t u < 0 → dcmp s u < 0 := by
    intro s t u h1 h2
    have hle : dcmp s u ≤ 0 := htrans s t u h1.le h2.le
    rcases lt_or_eq_of_le hle with h | h
    · exact h
    · exfalso
      have hut : dcmp u t ≤ 0 := htrans u s t (hflip s u h).le h1.le
      rw [hanti u t] at hut
      omega
  rcases hab with h1 | ⟨h1, h1c⟩ <;> rcases hbc with h2 | ⟨h2, h2c⟩
  · exact Or.inl (hstrict2 _ _ _ h1 h2)
  · exact Or.inl (hstrictr _ _ _ h1 h2)
  · exact Or.inl (hstrictl _ _ _ h1 h2)
  · exact Or.inr ⟨hzero _ _ _ h1 h2, htrans _ _ _ h1c h2c⟩

theorem timelinePointSpec_cons (ctxs : List (String × Context)) (b : ℝ) (n0 : ℕ)
    (p0 s0 r0 : ℝ) (cr : Championship × Result) (part : List (Championship × Result))
    (k : ℕ) :
    timelinePointSpec ctxs b (n0 + 1) (p0 + toNum cr.2.points)
      (s0 + capSaldoForRating cr.2.saldo)
      (r0 + computeRelativeContribution (getTournamentScore cr.2.points cr.2.saldo)
        (mapGet ctxs cr.1.id)) part k
    = timelinePointSpec ctxs b n0 p0 s0 r0 (cr :: part) (k + 1) := by
  simp only [timelinePointSpec, List.take_succ_cons, List.getD_cons_succ, List.map_cons,
    List.sum_cons, List.length_cons]
  rw [show n0 + 1 + (part.take (k + 1)).length
      = n0 + ((part.take (k + 1)).length + 1) from by omega]
  rw [show p0 + toNum cr.2.points
        + ((part.take (k + 1)).map (fun cr => toNum cr.2.points)).sum
      = p0 + (toNum cr.2.points
        + ((part.take (k + 1)).map (fun cr => toNum cr.2.points)).sum) from by ring]
  rw [show s0 + capSaldoForRating cr.2.saldo
        + ((part.take (k + 1)).map (fun cr => capSaldoForRating cr.2.saldo)).sum
      = s0 + (capSaldoForRating cr.2.saldo
        + ((part.take (k + 1)).map (fun cr => capSaldoForRating cr.2.saldo)).sum) from by ring]
  rw [show r0 + computeRelativeContribution (getTournamentScore cr.2.points cr.2.saldo)
          (mapGet ctxs cr.1.id)
        + ((part.take (k + 1)).map (fun cr => computeRelativeContribution
          (getTournamentScore cr.2.points cr.2.saldo) (mapGet ctxs cr.1.id))).sum
      = r0 + (computeRelativeContribution (getTournamentScore cr.2.points cr.2.saldo)
          (mapGet ctxs cr.1.id)
        + ((part.take (k + 1)).map (fun cr => computeRelativeContribution
          (getTournamentScore cr.2.points cr.2.saldo) (mapGet ctxs cr.1.id))).sum) from by ring]

theorem timelineGo_spec (ctxs : List (String × Context)) (b : ℝ) (pid : String)
    (l : List Championship) :
    ∀ (n : ℕ) (p s r : ℝ),
      (timelineGo ctxs b pid n p s r l).length = (playerResults pid l).length
      ∧ (timelineGo ctxs b pid n p s r l).map (fun pt => pt.championshipId)
          = (playerResults pid l).map (fun cr => cr.1.id)
      ∧ ∀ k, k < (playerResults pid l).length →
          (timelineGo ctxs b pid n p s r l).getD k dummyPoint
            = timelinePointSpec ctxs b n p s r (playerResults pid l) k := by
  induction l with
  | nil =>
    intro n p s r
    refine ⟨by simp [timelineGo, playerResults], by simp [timelineGo, playerResults], ?_⟩
    intro k hk
    simp [playerResults] at hk
  | cons c rest ih =>
    intro n p s r
    rcases hfind : c.results.find? (fun row => row.playerId == pid) with _ | res
    · have h1 : timelineGo ctxs b pid n p s r (c :: rest)
          = timelineGo ctxs b pid n p s r rest := by
        simp only [timelineGo]
        rw [hfind]
      have hpr : playerResults pid (c :: rest) = playerResults pid rest := by
        simp [playerResults, hfind]
      rw [h1, hpr]
      exact ih n p s r
    · have hpr : playerResults pid (c :: rest) = (c, res) :: playerResults pid rest := by
        simp [playerResults, hfind]
      have hcap : capSaldoForRating (some (toNum res.saldo)) = capSaldoForRating res.saldo := by
        simp [capSaldoForRating, toNum]
      have hscore : getTournamentScore res.points (some (toNum res.saldo))
          = getTournamentScore res.points res.saldo := by
        simp [getTournamentScore, capSaldoForRating, toNum]
      obtain ⟨ihlen, ihmap, ihget⟩ := ih (n + 1) (p + toNum res.points)
        (s + capSaldoForRating res.saldo)
        (r + computeRelativeContribution (getTournamentScore res.points res.saldo)
          (mapGet ctxs c.id))
      refine ⟨?_, ?_, ?_⟩
      · simp only [timelineGo]
        rw [hfind, hpr]
        simp only [List.length_cons]
        rw [hcap, hscore, ihlen]
      · simp only [timelineGo]
        rw [hfind, hpr]
        simp only [List.map_cons]
        rw [hcap, hscore, ihmap]
      · intro k hk
        simp only [timelineGo]
        rw [hfind, hpr]
        cases k with
        | zero =>
          rw [List.getD_cons_zero]
          simp only [timelinePointSpec, List.take_succ_cons, List.take_zero,
            List.getD_cons_zero, List.map_cons, List.map_nil, List.sum_cons, List.sum_nil,
            List.length_cons, List.length_nil, add_zero]
          rw [hcap, hscore]
        | succ k =>
          rw [List.getD_cons_succ, hcap, hscore]
          rw [hpr] at hk
          simp only [List.length_cons] at hk
          rw [ihget k (by omega)]
          exact timelinePointSpec_cons ctxs b n p s r (c, res) (playerResults pid rest) k

theorem playerResults_ids (pid : String) (l : List Championship) :
    (playerResults pid l).map (fun cr => cr.1.id)
      = (l.filter (fun c =>
          (c.results.find? (fun row => row.playerId == pid)).isSome)).map (fun c => c.id) := by
  induction l with
  | nil => simp [playerResults]
  | cons c rest ih =>
    simp only [playerResults] at ih ⊢
    rcases hfind : c.results.find? (fun row => row.playerId == pid) with _ | res
    · simp [List.filterMap_cons, List.filter_cons, hfind, ih]
    · simp [List.filterMap_cons, List.filter_cons, hfind, ih]

/-- C5: the timeline sorts all tournaments ascending by date with
creation order as the secondary key (a permutation of the input, sorted
lexicographically under the date comparator), emits exactly one point
per tournament containing a result for the player, in that order, and
every point's rating is the cumulative rating recomputed from the
player's running totals over the prefix of their participations; for
every point after the first the count is at least 2, so the `n == 1`
shrinkage gate does not fire and the rating is the unshrunk adjusted
rating of the prefix. -/
theorem C5_timeline_chronological_cumulative (dcmp : String → String → ℤ)
    (hanti : ∀ s t, dcmp s t = -dcmp t s)
    (htrans : ∀ s t u, dcmp s t ≤ 0 → dcmp t u ≤ 0 → dcmp s u ≤ 0)
    (playerId : String) (championships : List Championship) :
    List.Sorted (fun a b =>
        dcmp a.date b.date < 0
          ∨ (dcmp a.date b.date = 0 ∧ dcmp a.createdAt b.createdAt ≤ 0))
      (sortChampionshipsAscending dcmp championships)
    ∧ (sortChampionshipsAscending dcmp championships).Perm championships
    ∧ (getPlayerTimeline dcmp playerId championships).map (fun pt => pt.championshipId)
        = ((sortChampionshipsAscending dcmp championships).filter (fun c =>
            (c.results.find? (fun row => row.playerId == playerId)).isSome)).map
            (fun c => c.id)
    ∧ (∀ k, k < (getPlayerTimeline dcmp playerId championships).length →
        (getPlayerTimeline dcmp playerId championships).getD k dummyPoint
          = timelinePointSpec (computeChampionshipContexts championships)
              (computeGlobalBaselineScore championships) 0 0 0 0
              (playerResults playerId (sortChampionshipsAscending dcmp championships)) k)
    ∧ (∀ k, 1 ≤ k → k < (getPlayerTimeline dcmp playerId championships).length →
        ((getPlayerTimeline dcmp playerId championships).getD k dummyPoint).rating
          = computeRawRating
              (((playerResults playerId (sortChampionshipsAscending dcmp championships)).take
                  (k + 1)).map (fun cr => toNum cr.2.points)).sum
              (((playerResults playerId (sortChampionshipsAscending dcmp championships)).take
                  (k + 1)).map (fun cr => capSaldoForRating cr.2.saldo)).sum
              (k + 1)
            + (((playerResults playerId (sortChampionshipsAscending dcmp championships)).take
                  (k + 1)).map (fun cr => computeRelativeContribution
                    (getTournamentScore cr.2.points cr.2.saldo)
                    (mapGet (computeChampionshipContexts championships) cr.1.id))).sum
              / ((k + 1 : ℕ) : ℝ)) := by
  obtain ⟨hlen, hmap, hget⟩ := timelineGo_spec (computeChampionshipContexts championships)
    (computeGlobalBaselineScore championships) playerId
    (sortChampionshipsAscending dcmp championships) 0 0 0 0
  have hTL : getPlayerTimeline dcmp playerId championships
      = timelineGo (computeChampionshipContexts championships)
          (computeGlobalBaselineScore championships) playerId 0 0 0 0
          (sortChampionshipsAscending dcmp championships) := rfl
  refine ⟨?_, ?_, ?_, ?_, ?_⟩
  · haveI : IsTotal Championship (fun a b => championshipCmp dcmp a b ≤ 0) := by
      constructor
      intro a b
      rcases le_or_lt (championshipCmp dcmp a b) 0 with h | h
      · exact Or.inl h
      · refine Or.inr ?_
        rw [championshipCmp_neg dcmp hanti]
        omega
    haveI : IsTrans Championship (fun a b => championshipCmp dcmp a b ≤ 0) :=
      ⟨championshipLe_trans dcmp hanti htrans⟩
    have hs := List.sorted_insertionSort (fun a b => championshipCmp dcmp a b ≤ 0)
      championships
    unfold sortChampionshipsAscending
    exact hs.imp fun hab => (championshipCmp_le_iff dcmp _ _).mp hab
  · unfold sortChampionshipsAscending
    exact List.perm_insertionSort _ _
  · rw [hTL, hmap, playerResults_ids]
  · intro k hk
    rw [hTL] at hk ⊢
    exact hget k (by omega)
  · intro k hk1 hk2
    rw [hTL] at hk2 ⊢
    have hpoint := hget k (by omega)
    rw [hpoint]
    have hkpart : k < (playerResults playerId
        (sortChampionshipsAscending dcmp championships)).length := by omega
    have hlen2 : ((playerResults playerId
        (sortChampionshipsAscending dcmp championships)).take (k + 1)).length = k + 1 := by
      rw [List.length_take]
      omega
    simp only [timelinePointSpec, hlen2, zero_add]
    rw [applyRegressionToMean, if_pos (by omega : ¬(k + 1 = 1))]

/-- Witness for C5 with the constant-zero date comparator on the single
minimal championship: the timeline has exactly the one point for the one
tournament containing a result for X, and that point matches the
spec-side cumulative computation. -/
theorem C5_witness :
    (getPlayerTimeline (fun _ _ => (0 : ℤ)) "X" [champZero]).map (fun pt => pt.championshipId)
      = ((sortChampionshipsAscending (fun _ _ => (0 : ℤ)) [champZero]).filter (fun c =>
          (c.results.find? (fun row => row.playerId == "X")).isSome)).map (fun c => c.id)
    ∧ (getPlayerTimeline (fun _ _ => (0 : ℤ)) "X" [champZero]).getD 0 dummyPoint
        = timelinePointSpec (computeChampionshipContexts [champZero])
            (computeGlobalBaselineScore [champZero]) 0 0 0 0
            (playerResults "X" (sortChampionshipsAscending (fun _ _ => (0 : ℤ)) [champZero])) 0 := by
  have h := C5_timeline_chronological_cumulative (fun _ _ => (0 : ℤ))
    (fun _ _ => by norm_num) (fun _ _ _ h1 _ => h1) "X" [champZero]
  refine ⟨h.2.2.1, h.2.2.2.1 0 ?_⟩
  have hone : (getPlayerTimeline (fun _ _ => (0 : ℤ)) "X" [champZero]).length = 1 := by
    simp [getPlayerTimeline, sortChampionshipsAscending, timelineGo, champZero, List.find?]
  omega

theorem champT_context :
    computeChampionshipContexts [champT]
      = [("t1", Context.mk 90.25 10.75 (Real.sqrt (2 / 16)))] := by
  have hctx : contextOf champT = Context.mk 90.25 10.75 (Real.sqrt (2 / 16)) := by
    simp only [contextOf, champT]
    norm_num [getTournamentScore, capSaldoForRating, toNum, SALDO_CAP_PER_TOURNAMENT,
      TOURNAMENT_REFERENCE_SIZE, Context.mk.injEq]
    constructor
    · rw [show (1849 : ℝ) = 43 ^ 2 from by norm_num, Real.sqrt_sq (by norm_num),
        show (16 : ℝ) = 4 ^ 2 from by norm_num, Real.sqrt_sq (by norm_num)]
    · have h8 : (1 : ℝ) ≤ Real.sqrt 8 := by
        rw [show (1 : ℝ) = Real.sqrt 1 from Real.sqrt_one.symm]
        exact Real.sqrt_le_sqrt (by norm_num)
      exact inv_le_one_of_one_le₀ h8
  simp only [computeChampionshipContexts, List.foldl, mapSet]
  rw [hctx]
  rfl

theorem champT_ranking (locCmp : String → String → ℤ) :
    (computeRanking locCmp [champT] [playerX, playerY]).map (fun e => e.playerId)
      = ["X", "Y"] := by
  have hX : getTournamentScore (some 100) (some 10) = 101 := by
    norm_num [getTournamentScore, capSaldoForRating, toNum, SALDO_CAP_PER_TOURNAMENT]
  have hY : getTournamentScore (some 80) (some (-5)) = 79.5 := by
    norm_num [getTournamentScore, capSaldoForRating, toNum, SALDO_CAP_PER_TOURNAMENT]
  have hbase : computeGlobalBaselineScore [champT] = 90.25 := by
    simp only [computeGlobalBaselineScore, champT, List.map_cons, List.map_nil,
      List.sum_cons, List.sum_nil, List.length_cons, List.length_nil, hX, hY]
    norm_num
  have hc10 : capSaldoForRating (some 10) = 10 := by
    norm_num [capSaldoForRating, toNum, SALDO_CAP_PER_TOURNAMENT]
  have hc5 : capSaldoForRating (some (-5)) = -5 := by
    norm_num [capSaldoForRating, toNum, SALDO_CAP_PER_TOURNAMENT]
  have hcX : computeRelativeContribution 101
      (some (Context.mk 90.25 10.75 (Real.sqrt (2 / 16)))) = 2.5 * Real.sqrt (2 / 16) := by
    simp only [computeRelativeContribution]
    rw [if_neg (by norm_num)]
    norm_num [clamp, RELATIVE_Z_CAP, RELATIVE_SCORE_SCALE]
  have hcY : computeRelativeContribution 79.5
      (some (Context.mk 90.25 10.75 (Real.sqrt (2 / 16)))) = -(2.5 * Real.sqrt (2 / 16)) := by
    simp only [computeRelativeContribution]
    rw [if_neg (by norm_num)]
    norm_num [clamp, RELATIVE_Z_CAP, RELATIVE_SCORE_SCALE]
  have hstats : buildStatsMap [champT] [("t1", Context.mk 90.25 10.75 (Real.sqrt (2 / 16)))]
      = [("X", StatsRow.mk "X" 1 100 10 10 (2.5 * Real.sqrt (2 / 16))),
         ("Y", StatsRow.mk "Y" 1 80 (-5) (-5) (-(2.5 * Real.sqrt (2 / 16))))] := by
    simp [buildStatsMap, champT, mapGet, mapSet, blankRow, addResult, toNum,
      hX, hY, hc10, hc5]
    simp only [← Real.sqrt_div (show (0 : ℝ) ≤ 2 from by norm_num)]
    exact ⟨hcX, hcY⟩
  have hentries : List.filterMap
        (fun kv => rankingEntryOf 90.25 [playerX, playerY] kv.2)
        [("X", StatsRow.mk "X" 1 100 10 10 (2.5 * Real.sqrt (2 / 16))),
         ("Y", StatsRow.mk "Y" 1 80 (-5) (-5) (-(2.5 * Real.sqrt (2 / 16))))]
      = [RankingEntry.mk "X" "Xavier" 1 100 10
          (applyRegressionToMean (computeRawRating 100 10 1 + 2.5 * Real.sqrt (2 / 16))
            1 90.25),
         RankingEntry.mk "Y" "Yolanda" 1 80 (-5)
          (applyRegressionToMean (computeRawRating 80 (-5) 1 + -(2.5 * Real.sqrt (2 / 16)))
            1 90.25)] := by
    simp [rankingEntryOf, playerX, playerY, List.find?, List.filterMap]
  have hreg : ∀ x b : ℝ, applyRegressionToMean x 1 b = x * (1 / 3) + b * (2 / 3) := by
    intro x b
    simp only [applyRegressionToMean, RATING_REGRESSION_K]
    norm_num
  have hrawX : computeRawRating 100 10 1 = 101 * (1 + Real.log 2 * 0.05) := by
    simp only [computeRawRating]
    rw [if_neg (by norm_num)]
    rw [show (1 + ((1 : ℕ) : ℝ)) = 2 from by norm_num,
      min_eq_right (by nlinarith [Real.log_two_lt_d9])]
    norm_num
  have hrawY : computeRawRating 80 (-5) 1 = 79.5 * (1 + Real.log 2 * 0.05) := by
    simp only [computeRawRating]
    rw [if_neg (by norm_num)]
    rw [show (1 + ((1 : ℕ) : ℝ)) = 2 from by norm_num,
      min_eq_right (by nlinarith [Real.log_two_lt_d9])]
    norm_num
  have hlt : applyRegressionToMean (computeRawRating 80 (-5) 1 + -(2.5 * Real.sqrt (2 / 16)))
        1 90.25
      < applyRegressionToMean (computeRawRating 100 10 1 + 2.5 * Real.sqrt (2 / 16))
        1 90.25 := by
    rw [hreg, hreg, hrawX, hrawY]
    nlinarith [Real.log_two_gt_d9, Real.sqrt_nonneg ((2 : ℝ) / 16)]
  have hle : rankingCompare locCmp
      (RankingEntry.mk "X" "Xavier" 1 100 10
        (applyRegressionToMean (computeRawRating 100 10 1 + 2.5 * Real.sqrt (2 / 16)) 1 90.25))
      (RankingEntry.mk "Y" "Yolanda" 1 80 (-5)
        (applyRegressionToMean (computeRawRating 80 (-5) 1 + -(2.5 * Real.sqrt (2 / 16)))
          1 90.25)) ≤ 0 :=
    (rankingCompare_le_iff locCmp _ _).mpr (Or.inl hlt)
  simp only [computeRanking]
  rw [champT_context, hbase, hstats, hentries]
  simp only [List.insertionSort, List.orderedInsert]
  rw [if_pos hle]
  simp

/-- C2: the concrete one-tournament scenario of the spec: tournament
scores 101 and 79.5, context mean 90.25, std 10.75, size weight
`sqrt (2/16)`, relative contributions `±2.5 * sqrt (2/16) ≈ ±0.884`,
baseline 90.25, X's raw rating `(100+1)(1 + ln 2 * 0.05) ≈ 104.5`,
adjusted rating `≈ 105.39`, final rating (shrunk with weight 1/3)
`≈ 95.30`, and the ranking places X above Y. -/
theorem C2_concrete_scenario (locCmp : String → String → ℤ) :
    getTournamentScore (some 100) (some 10) = 101
    ∧ getTournamentScore (some 80) (some (-5)) = 79.5
    ∧ mapGet (computeChampionshipContexts [champT]) "t1"
        = some (Context.mk 90.25 10.75 (Real.sqrt (2 / 16)))
    ∧ computeRelativeContribution 101 (some (Context.mk 90.25 10.75 (Real.sqrt (2 / 16))))
        = 2.5 * Real.sqrt (2 / 16)
    ∧ computeRelativeContribution 79.5 (some (Context.mk 90.25 10.75 (Real.sqrt (2 / 16))))
        = -(2.5 * Real.sqrt (2 / 16))
    ∧ |2.5 * Real.sqrt (2 / 16) - 0.884| < 0.001
    ∧ computeGlobalBaselineScore [champT] = 90.25
    ∧ computeRawRating 100 10 1 = 101 * (1 + Real.log 2 * 0.05)
    ∧ |computeRawRating 100 10 1 - 104.5| < 0.01
    ∧ |computeRawRating 100 10 1 + 2.5 * Real.sqrt (2 / 16) - 105.39| < 0.01
    ∧ applyRegressionToMean (computeRawRating 100 10 1 + 2.5 * Real.sqrt (2 / 16)) 1 90.25
        = (computeRawRating 100 10 1 + 2.5 * Real.sqrt (2 / 16)) * (1 / 3) + 90.25 * (2 / 3)
    ∧ |applyRegressionToMean (computeRawRating 100 10 1 + 2.5 * Real.sqrt (2 / 16)) 1 90.25
        - 95.30| < 0.01
    ∧ (computeRanking locCmp [champT] [playerX, playerY]).map (fun e => e.playerId)
        = ["X", "Y"] := by
  have hsqlo : (0.35354 : ℝ) < Real.sqrt (2 / 16) := by
    rw [Real.lt_sqrt (by norm_num)]
    norm_num
  have hsqhi : Real.sqrt ((2 : ℝ) / 16) < 0.35356 := by
    rw [Real.sqrt_lt' (by norm_num)]
    norm_num
  have hloglo := Real.log_two_gt_d9
  have hloghi := Real.log_two_lt_d9
  have hX : getTournamentScore (some 100) (some 10) = 101 := by
    norm_num [getTournamentScore, capSaldoForRating, toNum, SALDO_CAP_PER_TOURNAMENT]
  have hY : getTournamentScore (some 80) (some (-5)) = 79.5 := by
    norm_num [getTournamentScore, capSaldoForRating, toNum, SALDO_CAP_PER_TOURNAMENT]
  have hctxget : mapGet (computeChampionshipContexts [champT]) "t1"
      = some (Context.mk 90.25 10.75 (Real.sqrt (2 / 16))) := by
    rw [champT_context]
    simp [mapGet]
  have hcX : computeRelativeContribution 101
      (some (Context.mk 90.25 10.75 (Real.sqrt (2 / 16)))) = 2.5 * Real.sqrt (2 / 16) := by
    simp only [computeRelativeContribution]
    rw [if_neg (by norm_num)]
    norm_num [clamp, RELATIVE_Z_CAP, RELATIVE_SCORE_SCALE]
  have hcY : computeRelativeContribution 79.5
      (some (Context.mk 90.25 10.75 (Real.sqrt (2 / 16)))) = -(2.5 * Real.sqrt (2 / 16)) := by
    simp only [computeRelativeContribution]
    rw [if_neg (by norm_num)]
    norm_num [clamp, RELATIVE_Z_CAP, RELATIVE_SCORE_SCALE]
  have hbase : computeGlobalBaselineScore [champT] = 90.25 := by
    simp only [computeGlobalBaselineScore, champT, List.map_cons, List.map_nil,
      List.sum_cons, List.sum_nil, List.length_cons, List.length_nil, hX, hY]
    norm_num
  have hrawX : computeRawRating 100 10 1 = 101 * (1 + Real.log 2 * 0.05) := by
    simp only [computeRawRating]
    rw [if_neg (by norm_num)]
    rw [show (1 + ((1 : ℕ) : ℝ)) = 2 from by norm_num,
      min_eq_right (by nlinarith [Real.log_two_lt_d9])]
    norm_num
  have hreg : applyRegressionToMean (computeRawRating 100 10 1 + 2.5 * Real.sqrt (2 / 16))
      1 90.25
      = (computeRawRating 100 10 1 + 2.5 * Real.sqrt (2 / 16)) * (1 / 3)
        + 90.25 * (2 / 3) := by
    simp only [applyRegressionToMean, RATING_REGRESSION_K]
    norm_num
  refine ⟨hX, hY, hctxget, hcX, hcY, ?_, hbase, hrawX, ?_, ?_, hreg, ?_,
    champT_ranking locCmp⟩
  · rw [abs_lt]
    constructor <;> nlinarith [hsqlo, hsqhi]
  · rw [hrawX, abs_lt]
    constructor <;> nlinarith [hloglo, hloghi]
  · rw [hrawX, abs_lt]
    constructor <;> nlinarith [hloglo, hloghi, hsqlo, hsqhi]
  · rw [hreg, hrawX, abs_lt]
    constructor <;> nlinarith [hloglo, hloghi, hsqlo, hsqhi]

end Billar
